import Mathlib

/-!
Verification of the Application Workflow & Secure Review-Token subsystem of
the IneedaDrNote repository.

The repository ships the React client and its documentation; the Express
backend that implements the Token Service, Workflow Engine, Assignment
Scheduler and Decision Processor is documented (replit.md, spec) but its
source is not part of the tree.  Client-side functions are embedded directly
from their source files; each backend operation is embedded from the spec's
operational description and is marked `Modelled from the spec:` in its doc
comment.
-/

namespace QueryClient

/-- An HTTP response as observed by `client/src/lib/queryClient.ts`: the
`ok` flag, the `statusText`, and the body text produced by `res.text()`
(`res.json()` is modelled as returning this body text unparsed). -/
structure HttpResponse where
  ok : Bool
  statusText : String
  bodyText : String
deriving DecidableEq, Repr

/-- `throwIfResNotOk` from `client/src/lib/queryClient.ts`: when `res.ok` is
false it throws `new Error(text || res.statusText)`; the JS `||` falls back
to `statusText` exactly when the body text is the empty string. -/
def throwIfResNotOk (res : HttpResponse) : Except String Unit :=
  if !res.ok then
    Except.error (if res.bodyText = "" then res.statusText else res.bodyText)
  else
    Except.ok ()

/-- `apiRequest` from `client/src/lib/queryClient.ts`, starting from the
`Response` produced by `fetch`: it awaits `throwIfResNotOk res` and only
then returns `res`. -/
def apiRequest (res : HttpResponse) : Except String HttpResponse :=
  match throwIfResNotOk res with
  | Except.error e => Except.error e
  | Except.ok _ => Except.ok res

/-- `defaultQueryFn` from `client/src/lib/queryClient.ts`, starting from the
`Response` produced by `fetch`: it awaits `throwIfResNotOk res` and only then
returns `res.json()` (modelled as the body text). -/
def defaultQueryFn (res : HttpResponse) : Except String String :=
  match throwIfResNotOk res with
  | Except.error e => Except.error e
  | Except.ok _ => Except.ok res.bodyText

end QueryClient

namespace ReviewPortal

/-- The JSON payload the reviewer portal posts to
`POST /api/review/:token/decision` (`client/src/pages/DoctorReviewPortal.tsx`,
`submitMutation.mutationFn`). -/
structure DecisionPayload where
  decision : String
  notes : String
deriving DecidableEq, Repr

/-- The only two ways `DoctorReviewPortal` invokes `submitMutation.mutate`:
the Approve button's `onClick` and the Deny button's `onClick`
(`client/src/pages/DoctorReviewPortal.tsx`, lines 238-241 and 255-258). -/
inductive SubmitAction
  | approveClick
  | denyClick
deriving DecidableEq, Repr

/-- The payload built by each button handler: the Approve handler calls
`submitMutation.mutate` with decision `"approved"`, the Deny handler with
decision `"denied"`; both pass the current notes. -/
def submitPayload : SubmitAction → String → DecisionPayload
  | SubmitAction.approveClick, notes => { decision := "approved", notes := notes }
  | SubmitAction.denyClick, notes => { decision := "denied", notes := notes }

end ReviewPortal

namespace AppsList

/-- A JavaScript value as it can flow out of `variants[status]` or
`labels[status]` in `statusBadge`: `undefined` on a complete miss, a string
own-property, or the truthy function/object a plain object literal inherits
from `Object.prototype` (JS property access consults the prototype chain
when the own property is absent). -/
inductive JsValue
  | undefined
  | str (s : String)
  | inherited (name : String)
deriving DecidableEq, Repr

/-- The property names every plain object literal inherits from
`Object.prototype`; indexing with one of these returns the inherited
function (or, for `__proto__`, the prototype object), never `undefined`. -/
def protoProps : List String :=
  ["constructor", "hasOwnProperty", "isPrototypeOf", "propertyIsEnumerable",
   "toLocaleString", "toString", "valueOf", "__defineGetter__",
   "__defineSetter__", "__lookupGetter__", "__lookupSetter__", "__proto__"]

/-- JS property access `obj[key]` on an object literal whose own properties
are strings: the own property wins, otherwise the prototype chain is
consulted, otherwise the result is `undefined`. -/
def jsIndex (ownProps : List (String × String)) (key : String) : JsValue :=
  match ownProps.lookup key with
  | some v => JsValue.str v
  | none => if key ∈ protoProps then JsValue.inherited key else JsValue.undefined

/-- JS truthiness of such a value: `undefined` and the empty string are
falsy; every member inherited from `Object.prototype` is a function or an
object, hence truthy. -/
def JsValue.truthy : JsValue → Bool
  | JsValue.undefined => false
  | JsValue.str s => !(s == "")
  | JsValue.inherited _ => true

/-- The JS short-circuit `a || b`. -/
def jsOr (a b : JsValue) : JsValue :=
  if a.truthy then a else b

/-- The rendered badge: the extra `className` put on the `<Badge>` and the
React child rendered inside it
(`client/src/pages/dashboard/shared/ApplicationsListPage.tsx`).  Both are
arbitrary JS values: a non-string child makes React fail to render it. -/
structure BadgeProps where
  variantClass : JsValue
  label : JsValue
deriving DecidableEq, Repr

/-- The `variants` record literal inside `statusBadge`
(`ApplicationsListPage.tsx`, lines 28-35). -/
def variants : List (String × String) :=
  [("pending", "bg-yellow-100 text-yellow-800 dark:bg-yellow-900/30 dark:text-yellow-400"),
   ("doctor_review", "bg-blue-100 text-blue-800 dark:bg-blue-900/30 dark:text-blue-400"),
   ("doctor_approved", "bg-green-100 text-green-800 dark:bg-green-900/30 dark:text-green-400"),
   ("doctor_denied", "bg-red-100 text-red-800 dark:bg-red-900/30 dark:text-red-400"),
   ("completed", "bg-green-100 text-green-800 dark:bg-green-900/30 dark:text-green-400"),
   ("rejected", "bg-red-100 text-red-800 dark:bg-red-900/30 dark:text-red-400")]

/-- The `labels` record literal inside `statusBadge`
(`ApplicationsListPage.tsx`, lines 36-43). -/
def labels : List (String × String) :=
  [("pending", "Pending"),
   ("doctor_review", "Doctor Review"),
   ("doctor_approved", "Doctor Approved"),
   ("doctor_denied", "Doctor Denied"),
   ("completed", "Completed"),
   ("rejected", "Rejected")]

/-- `statusBadge` from `ApplicationsListPage.tsx`, lines 27-49: it renders
`<Badge className=(variants[status] || "")>(labels[status] || status)</Badge>`.
Every stored own value is a non-empty string, so the JS `||` fallback fires
exactly when the whole property access — prototype chain included — yields
a falsy value. -/
def statusBadge (status : String) : BadgeProps :=
  { variantClass := jsOr (jsIndex variants status) (JsValue.str ""),
    label := jsOr (jsIndex labels status) (JsValue.str status) }

/-- The six status values for which `statusBadge` has an explicit entry. -/
def knownStatuses : List String :=
  ["pending", "doctor_review", "doctor_approved", "doctor_denied", "completed", "rejected"]

end AppsList

namespace TokenService

/-- Modelled from the spec: the `status` enum of a ReviewToken
(`active`, `consumed`, `expired`). -/
inductive TokenStatus
  | active
  | consumed
  | expired
deriving DecidableEq, Repr

/-- Modelled from the spec: the stored ReviewToken record (token value,
applicationId, reviewerId, status, createdAt, expiresAt, consumedAt);
timestamps are milliseconds since the epoch. -/
structure ReviewToken where
  token : String
  applicationId : Nat
  reviewerId : Nat
  status : TokenStatus
  createdAt : Nat
  expiresAt : Nat
  consumedAt : Option Nat
deriving DecidableEq, Repr

/-- Modelled from the spec: the Token Service's capability errors. -/
inductive TokenError
  | tokenNotFound
  | tokenExpired
  | tokenConsumed
deriving DecidableEq, Repr

/-- Seven days in milliseconds. -/
def sevenDays : Nat := 7 * 24 * 60 * 60 * 1000

/-- Modelled from the spec: `issue(applicationId, reviewerId)` at time `now`
stores a ReviewToken with `status = active`, `expiresAt = now + 7 days`;
the random token value is an input here since randomness is external. -/
def issue (tokenValue : String) (applicationId reviewerId now : Nat) : ReviewToken :=
  { token := tokenValue
    applicationId := applicationId
    reviewerId := reviewerId
    status := TokenStatus.active
    createdAt := now
    expiresAt := now + sevenDays
    consumedAt := none }

/-- Modelled from the spec: `validate` on an already-looked-up record.
A `consumed` token deterministically fails with `TokenConsumedError`
(spec's single-use property); otherwise expiry is computed at read time
from `expiresAt` (`now > expiresAt`) or from a stored `expired` status,
failing with `TokenExpiredError`; only an `active`, unexpired token
validates, and validation does not mutate the record. -/
def validateRecord (now : Nat) (t : ReviewToken) : Except TokenError ReviewToken :=
  if t.status = TokenStatus.consumed then
    Except.error TokenError.tokenConsumed
  else if t.expiresAt < now ∨ t.status = TokenStatus.expired then
    Except.error TokenError.tokenExpired
  else
    Except.ok t

/-- Modelled from the spec: `consume` re-validates and performs the
conditional write `status: active → consumed`, `consumedAt = now`; a failed
conditional write surfaces `TokenConsumedError`. -/
def consume (now : Nat) (t : ReviewToken) : Except TokenError ReviewToken :=
  match validateRecord now t with
  | Except.error e => Except.error e
  | Except.ok t' =>
    if t'.status = TokenStatus.active then
      Except.ok { t' with status := TokenStatus.consumed, consumedAt := some now }
    else
      Except.error TokenError.tokenConsumed

/-- Running a sequence of `consume` attempts against one token, threading
the stored record: a successful consume persists the updated record, a
failed one leaves the store unchanged. -/
def consumeSeq (t : ReviewToken) : List Nat → List (Except TokenError ReviewToken)
  | [] => []
  | now :: rest =>
    match consume now t with
    | Except.ok t' => Except.ok t' :: consumeSeq t' rest
    | Except.error e => Except.error e :: consumeSeq t rest

/-- The number of successful attempts in a list of `consume` results. -/
def successCount : List (Except TokenError ReviewToken) → Nat
  | [] => 0
  | Except.ok _ :: rest => successCount rest + 1
  | Except.error _ :: rest => successCount rest

/-- Concrete token used by the witnesses: issued at time 0. -/
def tok0 : ReviewToken := issue "tok0value" 11 22 0

/-- The record stored after `tok0` is consumed at time 1. -/
def tok0done : ReviewToken :=
  { tok0 with status := TokenStatus.consumed, consumedAt := some 1 }

end TokenService

namespace Workflow

/-- Modelled from the spec: the application status enum of the five-state
machine of §4.1 (normalized vocabulary; the stored strings are `pending`,
`doctor_review`, `doctor_approved`, `doctor_denied`, `completed`,
`rejected`). -/
inductive Status
  | pending
  | in_review
  | approved
  | denied
  | completed
  | rejected
deriving DecidableEq, Repr

/-- Modelled from the spec: `canTransition(from, to)`, the pure adjacency
of the state machine: `pending → in_review`, `in_review → approved`,
`in_review → denied`, `approved → completed`, `pending → rejected`,
`in_review → rejected`; everything else is illegal. -/
def canTransition : Status → Status → Bool
  | Status.pending, Status.in_review => true
  | Status.in_review, Status.approved => true
  | Status.in_review, Status.denied => true
  | Status.approved, Status.completed => true
  | Status.pending, Status.rejected => true
  | Status.in_review, Status.rejected => true
  | _, _ => false

/-- Modelled from the spec: the stored Application record. -/
structure Application where
  id : Nat
  requesterId : Nat
  packageId : Nat
  status : Status
  createdAt : Nat
  assignedReviewerId : Option Nat
  reviewNotes : String
  processingNotes : String
deriving DecidableEq, Repr

/-- Modelled from the spec: errors of the Workflow Engine's write path. -/
inductive WorkflowError
  | staleState
  | applicationNotFound
deriving DecidableEq, Repr

/-- The Record Store's application table, read by id. -/
def Store : Type := Nat → Option Application

/-- Modelled from the spec: `transition(applicationId, from, to, actor)`
performs the conditional write on `status`: it succeeds only if the stored
status equals `from`, fails with `StaleStateError` otherwise, and is the
sole write path for `status`.  The (possibly updated) store is returned in
both cases so the error path's non-mutation is observable. -/
def transition (store : Store) (applicationId : Nat)
    (fromStatus toStatus : Status) (actor : Nat) :
    Except WorkflowError Unit × Store :=
  match store applicationId with
  | none => (Except.error WorkflowError.applicationNotFound, store)
  | some app =>
    if app.status = fromStatus then
      (Except.ok (),
       fun i => if i = applicationId then some { app with status := toStatus } else store i)
    else
      (Except.error WorkflowError.staleState, store)

/-- Concrete application used by the witnesses. -/
def app1 : Application :=
  { id := 1, requesterId := 7, packageId := 3, status := Status.pending,
    createdAt := 0, assignedReviewerId := none,
    reviewNotes := "", processingNotes := "" }

/-- Concrete one-application store used by the witnesses. -/
def store1 : Store := fun i => if i = 1 then some app1 else none

end Workflow

namespace ReviewEndpoint

/-- Modelled from the spec: the requester record surfaced to the reviewer. -/
structure Requester where
  id : Nat
  name : String
deriving DecidableEq, Repr

/-- Modelled from the spec: the purchased package surfaced to the reviewer. -/
structure Package where
  id : Nat
  name : String
deriving DecidableEq, Repr

/-- Modelled from the spec: the reviewer record surfaced on the page. -/
structure ReviewerInfo where
  id : Nat
  name : String
deriving DecidableEq, Repr

/-- Modelled from the spec: the 200 body of `GET /review/:token`, with the
fields application, requester, package, reviewer. -/
structure ReviewContext where
  application : Workflow.Application
  requester : Requester
  package : Package
  reviewer : ReviewerInfo
deriving DecidableEq, Repr

/-- Modelled from the spec: the HTTP outcomes of `GET /review/:token`:
200 with a body, 404 unknown, 410 expired/consumed. -/
inductive GetReviewResult
  | ok200 (body : ReviewContext)
  | notFound404
  | gone410
deriving DecidableEq, Repr

/-- The read-only state the endpoint consults: the token table (lookup by
exact token value) and the lookups used to build the review context. -/
structure Env where
  tokens : String → Option TokenService.ReviewToken
  applications : Nat → Workflow.Application
  requesters : Nat → Requester
  packages : Nat → Package
  reviewers : Nat → ReviewerInfo

/-- Modelled from the spec: `GET /review/:token` — 404 for an unknown
token, 410 for an expired or consumed one, otherwise 200 with the
application/requester/package/reviewer context bound to the token. -/
def getReview (env : Env) (tokenValue : String) (now : Nat) : GetReviewResult :=
  match env.tokens tokenValue with
  | none => GetReviewResult.notFound404
  | some t =>
    match TokenService.validateRecord now t with
    | Except.error _ => GetReviewResult.gone410
    | Except.ok t' =>
      GetReviewResult.ok200
        { application := env.applications t'.applicationId
          requester := env.requesters (env.applications t'.applicationId).requesterId
          package := env.packages (env.applications t'.applicationId).packageId
          reviewer := env.reviewers t'.reviewerId }

/-- Concrete environment used by the witness: it stores exactly the token
`tok0` (bound to application 11 and reviewer 22). -/
def env1 : Env :=
  { tokens := fun v => if v = "tok0value" then some TokenService.tok0 else none
    applications := fun i => { Workflow.app1 with id := i, status := Workflow.Status.in_review }
    requesters := fun i => { id := i, name := "requester" }
    packages := fun i => { id := i, name := "package" }
    reviewers := fun i => { id := i, name := "reviewer" } }

end ReviewEndpoint

namespace Scheduler

/-- Modelled from the spec: a Reviewer record as the scheduler sees it. -/
structure Reviewer where
  id : Nat
  isActive : Bool
  lastAssignedAt : Option Nat
deriving DecidableEq, Repr

/-- Modelled from the spec: step 1 of the algorithm — the ids of all
reviewers with `isActive = true`, sorted by the stable key `id`. -/
def activeIds (reviewers : List Reviewer) : List Nat :=
  List.insertionSort (· ≤ ·) ((reviewers.filter fun r => r.isActive).map fun r => r.id)

/-- Modelled from the spec: steps 2-4 of the algorithm.  `ids` is the
sorted active list, `ptr` the stored `AssignmentPointer.lastAssignedReviewerId`
(none when nothing was ever assigned).  If the pointer is in the list, the
cyclic successor is selected (wrapping to index 0 at the end); if the
pointer was deactivated, the first active id greater than it is selected,
wrapping to the head otherwise; an empty active list selects nobody
(`NoEligibleReviewerError`). -/
def selectNext (ids : List Nat) (ptr : Option Nat) : Option Nat :=
  match ids with
  | [] => none
  | first :: _ =>
    match ptr with
    | none => some first
    | some p =>
      if p ∈ ids then
        some (ids.getD ((ids.indexOf p + 1) % ids.length) first)
      else
        match ids.find? fun x => decide (p < x) with
        | some x => some x
        | none => some first

/-- A run of sequential assignments: each step selects the next reviewer
and writes it back to the pointer (step 5), threading the stored pointer
through the run; the selections are returned in order. -/
def assignTrace (ids : List Nat) : Option Nat → Nat → List Nat
  | _, 0 => []
  | ptr, m + 1 =>
    match selectNext ids ptr with
    | none => []
    | some x => x :: assignTrace ids (some x) m

end Scheduler

namespace TokenService

theorem consume_ok_elim {now : Nat} {t t' : ReviewToken}
    (h : consume now t = Except.ok t') :
    t.status = TokenStatus.active ∧ now ≤ t.expiresAt
    ∧ t' = { t with status := TokenStatus.consumed, consumedAt := some now } := by
  unfold consume validateRecord at h
  by_cases hc : t.status = TokenStatus.consumed
  · simp [hc] at h
  · by_cases hlt : t.expiresAt < now
    · simp [hc, hlt] at h
    · by_cases hexp : t.status = TokenStatus.expired
      · simp [hc, hlt, hexp] at h
      · have ha : t.status = TokenStatus.active := by
          cases hst : t.status
          · rfl
          · exact absurd hst hc
          · exact absurd hst hexp
        simp [hc, hlt, hexp, ha] at h
        exact ⟨ha, Nat.le_of_not_lt hlt, h.symm⟩

theorem consume_consumed {now : Nat} {t : ReviewToken}
    (h : t.status = TokenStatus.consumed) :
    consume now t = Except.error TokenError.tokenConsumed := by
  unfold consume validateRecord
  simp [h]

theorem consume_not_active {now : Nat} {t : ReviewToken}
    (h : t.status ≠ TokenStatus.active) :
    ∃ e, consume now t = Except.error e := by
  cases hst : t.status
  · exact absurd hst h
  · exact ⟨TokenError.tokenConsumed, consume_consumed hst⟩
  · refine ⟨TokenError.tokenExpired, ?_⟩
    unfold consume validateRecord
    simp [hst]

theorem consumeSeq_consumed {t : ReviewToken} (times : List Nat)
    (h : t.status = TokenStatus.consumed) :
    successCount (consumeSeq t times) = 0 := by
  induction times with
  | nil => rfl
  | cons now rest ih =>
    simp only [consumeSeq, consume_consumed h, successCount]
    exact ih

theorem consumeSeq_le_one (t : ReviewToken) (times : List Nat) :
    successCount (consumeSeq t times) ≤ 1 := by
  induction times generalizing t with
  | nil => exact Nat.zero_le 1
  | cons now rest ih =>
    simp only [consumeSeq]
    cases hc : consume now t with
    | ok t' =>
      have ht' : t'.status = TokenStatus.consumed := by
        have h3 := (consume_ok_elim hc).2.2
        simp [h3]
      simp only [successCount, consumeSeq_consumed rest ht']
      exact Nat.le_refl 1
    | error e =>
      simp only [successCount]
      exact ih t

end TokenService

/-- C8: for every HTTP response whose status is not ok, `apiRequest` and the
default query function throw an `Error` whose message is the response body
text (falling back to the status text when the body is empty), and they
return or parse the response only when the status is ok, so a failed request
is never observable as a success. -/
theorem QueryClient.nonOk_never_success (res : QueryClient.HttpResponse) :
    QueryClient.apiRequest res =
      (if res.ok then Except.ok res
       else Except.error (if res.bodyText = "" then res.statusText else res.bodyText))
    ∧ QueryClient.defaultQueryFn res =
      (if res.ok then Except.ok res.bodyText
       else Except.error (if res.bodyText = "" then res.statusText else res.bodyText))
    ∧ ((∃ v, QueryClient.apiRequest res = Except.ok v) ↔ res.ok = true)
    ∧ ((∃ v, QueryClient.defaultQueryFn res = Except.ok v) ↔ res.ok = true) := by
  obtain ⟨ok, st, body⟩ := res
  cases ok <;>
    simp [QueryClient.apiRequest, QueryClient.defaultQueryFn, QueryClient.throwIfResNotOk]

/-- C9: every decision payload the reviewer portal submits to
`POST /api/review/:token/decision` has its `decision` field equal to
`"approved"` or `"denied"`; no other decision value is ever sent by the
client. -/
theorem ReviewPortal.decision_approved_or_denied
    (a : ReviewPortal.SubmitAction) (notes : String) :
    (ReviewPortal.submitPayload a notes).decision = "approved"
    ∨ (ReviewPortal.submitPayload a notes).decision = "denied" := by
  cases a
  · exact Or.inl rfl
  · exact Or.inr rfl

/-- C10 counterexample: the status `"toString"` is outside the six known
values, yet `statusBadge` does not take the default branch: both property
accesses hit the inherited `Object.prototype.toString`, which is truthy, so
the JS fallbacks do not fire — the badge class is the inherited function
instead of `""` and the label is the inherited function instead of the raw
status string (React cannot render a function child). -/
theorem AppsList.statusBadge_proto_counterexample :
    "toString" ∉ AppsList.knownStatuses
    ∧ AppsList.statusBadge "toString" ≠
        { variantClass := AppsList.JsValue.str "",
          label := AppsList.JsValue.str "toString" }
    ∧ AppsList.statusBadge "toString" =
        { variantClass := AppsList.JsValue.inherited "toString",
          label := AppsList.JsValue.inherited "toString" } :=
  ⟨by decide, by decide, by decide⟩

/-- C10 (amended): `statusBadge` is total over arbitrary status strings;
for every status outside the six known values and outside the property
names inherited from `Object.prototype`, it takes the default branch,
rendering the raw status string itself with the fallback (empty) badge
class. -/
theorem AppsList.statusBadge_default_branch (status : String)
    (h : status ∉ AppsList.knownStatuses) (hp : status ∉ AppsList.protoProps) :
    AppsList.statusBadge status =
      { variantClass := AppsList.JsValue.str "",
        label := AppsList.JsValue.str status } := by
  simp only [AppsList.knownStatuses, List.mem_cons, List.not_mem_nil, or_false,
    not_or] at h
  obtain ⟨h1, h2, h3, h4, h5, h6⟩ := h
  have e1 : (status == "pending") = false := by simp [h1]
  have e2 : (status == "doctor_review") = false := by simp [h2]
  have e3 : (status == "doctor_approved") = false := by simp [h3]
  have e4 : (status == "doctor_denied") = false := by simp [h4]
  have e5 : (status == "completed") = false := by simp [h5]
  have e6 : (status == "rejected") = false := by simp [h6]
  have hv : AppsList.variants.lookup status = none := by
    simp [AppsList.variants, List.lookup, e1, e2, e3, e4, e5, e6]
  have hl : AppsList.labels.lookup status = none := by
    simp [AppsList.labels, List.lookup, e1, e2, e3, e4, e5, e6]
  simp [AppsList.statusBadge, AppsList.jsIndex, hv, hl, hp, AppsList.jsOr,
    AppsList.JsValue.truthy]

/-- Witness for C10: the legacy status `level2_review` is outside the six
known values and outside the inherited property names, and is rendered raw
with the fallback badge style. -/
theorem AppsList.statusBadge_default_branch_witness :
    "level2_review" ∉ AppsList.knownStatuses
    ∧ "level2_review" ∉ AppsList.protoProps
    ∧ AppsList.statusBadge "level2_review" =
        { variantClass := AppsList.JsValue.str "",
          label := AppsList.JsValue.str "level2_review" } :=
  ⟨by decide, by decide,
    AppsList.statusBadge_default_branch "level2_review" (by decide) (by decide)⟩

namespace TokenService

/-- C1: for every review token, at most one `consume` ever succeeds: a run
of consume attempts against one token has at most one success; a successful
consume starts from `active` and moves the record to `consumed`, after
which every subsequent consume attempt fails with `TokenConsumedError`;
and any state-changing attempt on a non-`active` token fails. -/
theorem token_single_use (t : ReviewToken) (times : List Nat) :
    successCount (consumeSeq t times) ≤ 1
    ∧ (∀ now t', consume now t = Except.ok t' →
        t.status = TokenStatus.active
        ∧ t'.status = TokenStatus.consumed
        ∧ ∀ now2, consume now2 t' = Except.error TokenError.tokenConsumed)
    ∧ (t.status ≠ TokenStatus.active →
        ∀ now, ∃ e, consume now t = Except.error e) := by
  refine ⟨consumeSeq_le_one t times, ?_, ?_⟩
  · intro now t' h
    obtain ⟨ha, _, ht'⟩ := consume_ok_elim h
    refine ⟨ha, by simp [ht'], ?_⟩
    intro now2
    exact consume_consumed (by simp [ht'])
  · intro hna now
    exact consume_not_active hna

/-- Witness for C1 on the concrete token `tok0`: the run `[1, 2, 3]` has at
most one success, consuming at time 1 yields the consumed record `tok0done`,
and a fourth attempt on it fails with `TokenConsumedError`. -/
theorem token_single_use_witness :
    successCount (consumeSeq tok0 [1, 2, 3]) ≤ 1
    ∧ tok0done.status = TokenStatus.consumed
    ∧ consume 5 tok0done = Except.error TokenError.tokenConsumed := by
  have h := token_single_use tok0 [1, 2, 3]
  have h2 := h.2.1 1 tok0done rfl
  exact ⟨h.1, h2.2.1, h2.2.2 5⟩

/-- C2: for every token whose `expiresAt` lies in the past, `validate` and
`consume` both fail with `TokenExpiredError`, even when the stored status is
still `active` — expiry is computed from `expiresAt` at read time, never
from the stored status alone (the `expired` stored status fails the same
way). -/
theorem token_expiry_computed (t : ReviewToken) (now : Nat)
    (hexp : t.expiresAt < now)
    (hst : t.status = TokenStatus.active ∨ t.status = TokenStatus.expired) :
    validateRecord now t = Except.error TokenError.tokenExpired
    ∧ consume now t = Except.error TokenError.tokenExpired := by
  have hc : t.status ≠ TokenStatus.consumed := by
    rcases hst with h | h <;> simp [h]
  constructor
  · unfold validateRecord
    simp [hc, hexp]
  · unfold consume validateRecord
    simp [hc, hexp]

/-- Witness for C2: `tok0` expires at millisecond 604800000 and is still
stored `active`, yet both `validate` and `consume` at millisecond 604800001
fail with `TokenExpiredError`. -/
theorem token_expiry_computed_witness :
    tok0.expiresAt < 604800001
    ∧ tok0.status = TokenStatus.active
    ∧ validateRecord 604800001 tok0 = Except.error TokenError.tokenExpired
    ∧ consume 604800001 tok0 = Except.error TokenError.tokenExpired := by
  have h := token_expiry_computed tok0 604800001 (by decide) (Or.inl rfl)
  exact ⟨by decide, rfl, h.1, h.2⟩

/-- C7: every call `issue(applicationId, reviewerId)` made at time `now`
stores a ReviewToken with `status = active` and `expiresAt` equal to `now`
plus exactly 7 days (in milliseconds). -/
theorem issue_active_seven_days (tokenValue : String)
    (applicationId reviewerId now : Nat) :
    (issue tokenValue applicationId reviewerId now).status = TokenStatus.active
    ∧ (issue tokenValue applicationId reviewerId now).expiresAt
        = now + 7 * 24 * 60 * 60 * 1000 :=
  ⟨rfl, rfl⟩

end TokenService

namespace Workflow

/-- C3: `canTransition(from, to)` is a pure function returning true exactly
for the pairs `pending → in_review`, `in_review → approved`,
`in_review → denied`, `approved → completed`, `pending → rejected` and
`in_review → rejected`, and false for every other pair of statuses
(in particular `completed → pending`). -/
theorem canTransition_spec (f t : Status) :
    canTransition f t = true ↔
      (f, t) ∈ [(Status.pending, Status.in_review),
        (Status.in_review, Status.approved),
        (Status.in_review, Status.denied),
        (Status.approved, Status.completed),
        (Status.pending, Status.rejected),
        (Status.in_review, Status.rejected)] := by
  cases f <;> cases t <;> decide

/-- C4: for every stored application, `transition(applicationId, from, to,
actor)` succeeds exactly when the currently stored status equals `from`;
when it differs, the call fails with `StaleStateError` and returns the
store entirely unchanged. -/
theorem transition_stale_check (store : Store) (applicationId : Nat)
    (fromStatus toStatus : Status) (actor : Nat) (app : Application)
    (happ : store applicationId = some app) :
    ((transition store applicationId fromStatus toStatus actor).1 = Except.ok ()
        ↔ app.status = fromStatus)
    ∧ (app.status ≠ fromStatus →
        transition store applicationId fromStatus toStatus actor
          = (Except.error WorkflowError.staleState, store)) := by
  unfold transition
  rw [happ]
  by_cases h : app.status = fromStatus
  · simp [h]
  · simp [h]

/-- Witness for C4: `store1` holds `app1` (status `pending`) under id 1;
a transition expecting `in_review` fails with `StaleStateError` and
returns `store1` unchanged. -/
theorem transition_stale_check_witness :
    app1.status ≠ Status.in_review
    ∧ transition store1 1 Status.in_review Status.approved 9
        = (Except.error WorkflowError.staleState, store1) := by
  have h := transition_stale_check store1 1 Status.in_review Status.approved 9 app1 rfl
  exact ⟨by decide, h.2 (by decide)⟩

end Workflow

namespace ReviewEndpoint

/-- C6: for every active, unexpired token, fetching the review context via
`GET /review/:token` succeeds with 200 and a body carrying the fields
application, requester, package and reviewer; an unknown token yields 404
and an expired or consumed token yields 410. -/
theorem getReview_contract (env : Env) (tokenValue : String) (now : Nat) :
    (∀ t, env.tokens tokenValue = some t →
        t.status = TokenService.TokenStatus.active →
        now ≤ t.expiresAt →
        getReview env tokenValue now = GetReviewResult.ok200
          { application := env.applications t.applicationId
            requester := env.requesters (env.applications t.applicationId).requesterId
            package := env.packages (env.applications t.applicationId).packageId
            reviewer := env.reviewers t.reviewerId })
    ∧ (env.tokens tokenValue = none →
        getReview env tokenValue now = GetReviewResult.notFound404)
    ∧ (∀ t, env.tokens tokenValue = some t →
        (t.status = TokenService.TokenStatus.consumed
          ∨ t.status = TokenService.TokenStatus.expired
          ∨ t.expiresAt < now) →
        getReview env tokenValue now = GetReviewResult.gone410) := by
  refine ⟨?_, ?_, ?_⟩
  · intro t ht hact hexp
    unfold getReview
    rw [ht]
    unfold TokenService.validateRecord
    have hlt : ¬ t.expiresAt < now := Nat.not_lt.mpr hexp
    simp [hact, hlt]
  · intro h
    unfold getReview
    rw [h]
  · intro t ht hbad
    unfold getReview
    rw [ht]
    unfold TokenService.validateRecord
    rcases hbad with h | h | h
    · simp [h]
    · simp [h]
    · by_cases hc : t.status = TokenService.TokenStatus.consumed
      · simp [hc]
      · simp [hc, h]

/-- Witness for C6: in `env1`, the stored active token at time 1 yields 200
with the full context, an unknown value yields 404, and the same token past
its expiry yields 410. -/
theorem getReview_contract_witness :
    getReview env1 "tok0value" 1 = GetReviewResult.ok200
      { application := env1.applications 11
        requester := env1.requesters (env1.applications 11).requesterId
        package := env1.packages (env1.applications 11).packageId
        reviewer := env1.reviewers 22 }
    ∧ getReview env1 "nosuch" 1 = GetReviewResult.notFound404
    ∧ getReview env1 "tok0value" 604800001 = GetReviewResult.gone410 := by
  have h1 := (getReview_contract env1 "tok0value" 1).1 TokenService.tok0 rfl rfl (by decide)
  have h2 := (getReview_contract env1 "nosuch" 1).2.1 rfl
  have h3 := (getReview_contract env1 "tok0value" 604800001).2.2 TokenService.tok0 rfl
    (Or.inr (Or.inr (by decide)))
  exact ⟨h1, h2, h3⟩

end ReviewEndpoint

namespace Scheduler

theorem dvd_iff_mod (N M k0 : Nat) (hN : 0 < N) (hk : k0 < N) :
    (N ∣ M + (N - k0)) ↔ M % N = k0 := by
  constructor
  · rintro ⟨q, hq⟩
    cases q with
    | zero => omega
    | succ q' =>
      rw [Nat.mul_succ] at hq
      have hMw : M = N * q' + k0 := by
        have h1 : 0 ≤ N * q' := Nat.zero_le _
        omega
      rw [hMw, Nat.mul_add_mod, Nat.mod_eq_of_lt hk]
  · intro hm
    have hd := Nat.div_add_mod M N
    refine ⟨M / N + 1, ?_⟩
    rw [Nat.mul_succ]
    omega

theorem countP_mod_range (N k0 : Nat) (hN : 0 < N) (hk : k0 < N) (M : Nat) :
    (List.range M).countP (fun k => decide (k % N = k0)) = (M + (N - 1 - k0)) / N := by
  induction M with
  | zero =>
    simp [Nat.div_eq_of_lt (show N - 1 - k0 < N by omega)]
  | succ M ih =>
    rw [List.range_succ, List.countP_append, ih]
    have harith : M + 1 + (N - 1 - k0) = M + (N - 1 - k0) + 1 := by omega
    rw [harith, Nat.succ_div]
    have hdvd : (N ∣ M + (N - 1 - k0) + 1) ↔ M % N = k0 := by
      have h2 : M + (N - 1 - k0) + 1 = M + (N - k0) := by omega
      rw [h2]
      exact dvd_iff_mod N M k0 hN hk
    by_cases hm : M % N = k0
    · simp [hm, hdvd.mpr hm, List.countP_cons]
    · have : ¬ (N ∣ M + (N - 1 - k0) + 1) := fun h => hm (hdvd.mp h)
      simp [hm, this, List.countP_cons]

theorem shift_mod_iff (n s i k : Nat) (hn : 0 < n) (hs : s < n) (hi : i < n) :
    ((s + k) % n = i) ↔ (k % n = (i + n - s) % n) := by
  rw [Nat.add_mod s k, Nat.mod_eq_of_lt hs]
  have hkm : k % n < n := Nat.mod_lt _ hn
  have h1 : (s + k % n < n ∧ (s + k % n) % n = s + k % n)
      ∨ (n ≤ s + k % n ∧ (s + k % n) % n = s + k % n - n) := by
    by_cases h : s + k % n < n
    · exact Or.inl ⟨h, Nat.mod_eq_of_lt h⟩
    · refine Or.inr ⟨Nat.le_of_not_lt h, ?_⟩
      rw [Nat.mod_eq_sub_mod (Nat.le_of_not_lt h)]
      exact Nat.mod_eq_of_lt (by omega)
  have h2 : (i + n - s < n ∧ (i + n - s) % n = i + n - s)
      ∨ (n ≤ i + n - s ∧ (i + n - s) % n = i + n - s - n) := by
    by_cases h : i + n - s < n
    · exact Or.inl ⟨h, Nat.mod_eq_of_lt h⟩
    · refine Or.inr ⟨Nat.le_of_not_lt h, ?_⟩
      rw [Nat.mod_eq_sub_mod (Nat.le_of_not_lt h)]
      exact Nat.mod_eq_of_lt (by omega)
  have hmlt : (s + k % n) % n < n := Nat.mod_lt _ hn
  have hmlt2 : (i + n - s) % n < n := Nat.mod_lt _ hn
  rcases h1 with h1 | h1 <;> rcases h2 with h2 | h2 <;> omega

theorem selectNext_get (ids : List Nat) (hnd : ids.Nodup) (j : Nat) (hj : j < ids.length) :
    selectNext ids (some (ids.get ⟨j, hj⟩)) =
      some (ids.get ⟨(j + 1) % ids.length, Nat.mod_lt _ (by omega)⟩) := by
  have hn : 0 < ids.length := by omega
  cases ids with
  | nil => simp at hn
  | cons a l =>
    simp only [selectNext]
    rw [if_pos (List.get_mem _ _ _)]
    rw [List.get_indexOf hnd ⟨j, hj⟩]
    rw [List.getD_eq_get _ _ (Nat.mod_lt _ hn)]

theorem assignTrace_map (ids : List Nat) (hnd : ids.Nodup) (M : Nat) :
    ∀ j (hj : j < ids.length),
    assignTrace ids (some (ids.get ⟨j, hj⟩)) M
      = (List.range M).map (fun k => ids.getD ((j + 1 + k) % ids.length) 0) := by
  induction M with
  | zero => intro j hj; rfl
  | succ M ih =>
    intro j hj
    have hn : 0 < ids.length := by omega
    have hlt : (j + 1) % ids.length < ids.length := Nat.mod_lt _ hn
    simp only [assignTrace, selectNext_get ids hnd j hj]
    rw [ih ((j + 1) % ids.length) hlt]
    rw [List.range_succ_eq_map, List.map_cons, List.map_map]
    congr 1
    · rw [List.getD_eq_get _ _ hlt]
    · apply List.map_congr_left
      intro k _
      simp only [Function.comp]
      rw [Nat.add_assoc ((j + 1) % ids.length) 1 k, Nat.mod_add_mod]
      congr 2
      omega

theorem assignTrace_count (ids : List Nat) (hnd : ids.Nodup)
    (j : Nat) (hj : j < ids.length) (m i : Nat) (hi : i < ids.length) :
    (assignTrace ids (some (ids.get ⟨j, hj⟩)) m).count (ids.get ⟨i, hi⟩)
      = (m + (ids.length - 1 - ((i + ids.length - (j + 1) % ids.length) % ids.length)))
          / ids.length := by
  have hn : 0 < ids.length := by omega
  set n := ids.length with hnn
  have hs : (j + 1) % n < n := Nat.mod_lt _ hn
  set s := (j + 1) % n with hss
  have hk0 : (i + n - s) % n < n := Nat.mod_lt _ hn
  rw [assignTrace_map ids hnd m j hj, List.count_eq_countP, List.countP_map]
  have hpred : ((fun x => x == ids.get ⟨i, hi⟩) ∘ fun k => ids.getD ((j + 1 + k) % n) 0)
      = fun k => decide (k % n = (i + n - s) % n) := by
    funext k
    have hlt : (j + 1 + k) % n < n := Nat.mod_lt _ hn
    simp only [Function.comp]
    rw [List.getD_eq_get _ _ hlt]
    have hmod : ((j + 1 + k) % n = i) ↔ (k % n = (i + n - s) % n) := by
      rw [← Nat.mod_add_mod (j + 1) n k]
      exact shift_mod_iff n s i k hn hs (by omega)
    by_cases h : (j + 1 + k) % n = i
    · have hget : ids.get ⟨(j + 1 + k) % n, hlt⟩ = ids.get ⟨i, hi⟩ := by
        congr 1
        exact Fin.ext h
      rw [show (ids.get ⟨(j + 1 + k) % n, hlt⟩ == ids.get ⟨i, hi⟩) = true from
          beq_iff_eq.mpr hget,
        decide_eq_true (hmod.mp h)]
    · have hget : ids.get ⟨(j + 1 + k) % n, hlt⟩ ≠ ids.get ⟨i, hi⟩ := by
        intro he
        exact h (congrArg Fin.val ((hnd.get_inj_iff).mp he))
      have hne : ¬ (k % n = (i + n - s) % n) := fun hc => h (hmod.mpr hc)
      rw [show (ids.get ⟨(j + 1 + k) % n, hlt⟩ == ids.get ⟨i, hi⟩) = false from
          beq_eq_false_iff_ne.mpr hget,
        decide_eq_false hne]
  rw [hpred]
  exact countP_mod_range n ((i + n - s) % n) hn hk0 m

/-- C5: for a sorted pool of N active reviewer ids and M >= N sequential
assignments with no deactivation, starting from a stored pointer inside the
pool: every reviewer receives either floor(M/N) or ceil(M/N) assignments
(`(M + N - 1) / N` is the ceiling); in every prefix of the run, no reviewer
holds two assignments while another holds zero; and each selection is the
cyclic successor, in stable sort order, of the stored last-assigned
pointer. -/
theorem roundRobin_fairness (ids : List Nat) (hsorted : List.Sorted (· < ·) ids)
    (j : Nat) (hj : j < ids.length) (M : Nat) (hM : ids.length ≤ M) :
    (∀ i, i < ids.length →
        (assignTrace ids (some (ids.getD j 0)) M).count (ids.getD i 0) = M / ids.length
        ∨ (assignTrace ids (some (ids.getD j 0)) M).count (ids.getD i 0)
            = (M + ids.length - 1) / ids.length)
    ∧ (∀ m, m ≤ M → ∀ i, i < ids.length → ∀ i2, i2 < ids.length →
        2 ≤ (assignTrace ids (some (ids.getD j 0)) m).count (ids.getD i 0) →
        1 ≤ (assignTrace ids (some (ids.getD j 0)) m).count (ids.getD i2 0))
    ∧ (∀ i, i < ids.length →
        selectNext ids (some (ids.getD i 0)) = some (ids.getD ((i + 1) % ids.length) 0)) := by
  have hnd : ids.Nodup := hsorted.nodup
  have hn : 0 < ids.length := by omega
  have ej : ids.getD j 0 = ids.get ⟨j, hj⟩ := List.getD_eq_get ids 0 hj
  refine ⟨?_, ?_, ?_⟩
  · intro i hi
    have ei : ids.getD i 0 = ids.get ⟨i, hi⟩ := List.getD_eq_get ids 0 hi
    rw [ej, ei, assignTrace_count ids hnd j hj M i hi]
    have hk0 : (i + ids.length - (j + 1) % ids.length) % ids.length < ids.length :=
      Nat.mod_lt _ hn
    set n := ids.length with hnn
    set k0 := (i + n - (j + 1) % n) % n with hk0n
    have hc1 : (n - 1 - k0) / n = 0 := Nat.div_eq_of_lt (by omega)
    have hc2 : (n - 1 - k0) % n = n - 1 - k0 := Nat.mod_eq_of_lt (by omega)
    rcases Nat.lt_or_ge (M % n + (n - 1 - k0)) n with hd | hd
    · left
      rw [Nat.add_div hn, hc1, hc2, if_neg (by omega)]
      omega
    · right
      rw [Nat.add_div hn, hc1, hc2, if_pos (by omega)]
      have hmn : M % n < n := Nat.mod_lt _ hn
      have hr : M + n - 1 = M + (n - 1) := by omega
      rw [hr, Nat.add_div hn,
        Nat.div_eq_of_lt (show n - 1 < n by omega),
        Nat.mod_eq_of_lt (show n - 1 < n by omega),
        if_pos (by omega)]
  · intro m hm i hi i2 hi2 h2c
    have ei : ids.getD i 0 = ids.get ⟨i, hi⟩ := List.getD_eq_get ids 0 hi
    have ei2 : ids.getD i2 0 = ids.get ⟨i2, hi2⟩ := List.getD_eq_get ids 0 hi2
    rw [ej, ei, assignTrace_count ids hnd j hj m i hi] at h2c
    rw [ej, ei2, assignTrace_count ids hnd j hj m i2 hi2]
    set n := ids.length with hnn
    have hk0 : (i + n - (j + 1) % n) % n < n := Nat.mod_lt _ hn
    have hk02 : (i2 + n - (j + 1) % n) % n < n := Nat.mod_lt _ hn
    have h2n := (Nat.le_div_iff_mul_le hn).mp h2c
    exact (Nat.le_div_iff_mul_le hn).mpr (by omega)
  · intro i hi
    have ei : ids.getD i 0 = ids.get ⟨i, hi⟩ := List.getD_eq_get ids 0 hi
    have elt : ids.getD ((i + 1) % ids.length) 0
        = ids.get ⟨(i + 1) % ids.length, Nat.mod_lt _ hn⟩ :=
      List.getD_eq_get ids 0 (Nat.mod_lt _ hn)
    rw [ei, elt]
    exact selectNext_get ids hnd i hi

/-- Witness for C5: pool [3, 5, 9], pointer at 5, seven assignments: the
count of reviewer 3 is floor or ceiling of 7/3, reviewer 9 reaching two
assignments forces reviewer 5 to hold at least one, and the successor of 5
is 9. -/
theorem roundRobin_fairness_witness :
    ((assignTrace [3, 5, 9] (some 5) 7).count 3 = 7 / 3
      ∨ (assignTrace [3, 5, 9] (some 5) 7).count 3 = (7 + 3 - 1) / 3)
    ∧ 2 ≤ (assignTrace [3, 5, 9] (some 5) 7).count 9
    ∧ 1 ≤ (assignTrace [3, 5, 9] (some 5) 7).count 5
    ∧ selectNext [3, 5, 9] (some 5) = some 9 := by
  have h := roundRobin_fairness [3, 5, 9] (by decide) 1 (by decide) 7 (by decide)
  refine ⟨h.1 0 (by decide), by decide, ?_, h.2.2 1 (by decide)⟩
  exact h.2.1 7 (Nat.le_refl 7) 2 (by decide) 1 (by decide) (by decide)

end Scheduler
